import Mathlib

/-!
# simple_watcher: a verification development

Shallow embedding of `Clib/simple_watcher.c` / `Clib/simple_watcher.h` (the
Windows implementation built on `ReadDirectoryChangesW` with overlapped I/O).

Conventions of the embedding

* `int` values are `Int`, `DWORD` values are `Nat`, a `HANDLE` is an `Int`
  (`NULL` is `0`), a `char*` is an `Option String` (`none` is `NULL`).
* A `sw_watcher*` argument is an `Option sw_watcher`: `none` is the null
  pointer, `some w` a pointer to a live object whose fields are `w`.  Functions
  that write through the pointer return the object afterwards.
* The operating system is an oracle `OS`: one value of `OS` fixes what every
  Win32 call made during one API call answers.  The calls made on kernel
  objects, each with its answer, and the `free` calls are returned as a trace
  (`List OsCall`).
* The constants of `<windows.h>` are not part of the repository; they are the
  fields of `WinConsts`, and `win32` carries the values of the Windows SDK.
* Every allocation can fail: `malloc` where the source tests its result, and
  `_strdup`, whose result the source stores unchecked (`NULL` when the copy
  cannot be allocated).
-/

namespace SimpleWatcher

/-! ## Constants -/

/-- Constants of `<windows.h>` that the watcher refers to by name. -/
structure WinConsts where
  FILE_NOTIFY_CHANGE_FILE_NAME : Nat
  FILE_NOTIFY_CHANGE_DIR_NAME : Nat
  FILE_NOTIFY_CHANGE_ATTRIBUTES : Nat
  FILE_NOTIFY_CHANGE_SIZE : Nat
  FILE_NOTIFY_CHANGE_LAST_WRITE : Nat
  FILE_NOTIFY_CHANGE_SECURITY : Nat
  FILE_ACTION_ADDED : Nat
  FILE_ACTION_REMOVED : Nat
  FILE_ACTION_MODIFIED : Nat
  FILE_ACTION_RENAMED_OLD_NAME : Nat
  FILE_ACTION_RENAMED_NEW_NAME : Nat
  INVALID_HANDLE_VALUE : Int
  WAIT_OBJECT_0 : Nat
  ERROR_IO_PENDING : Nat
  INFINITE : Nat

/-- The values the Windows SDK headers give to the constants. -/
def win32 : WinConsts where
  FILE_NOTIFY_CHANGE_FILE_NAME := 0x1
  FILE_NOTIFY_CHANGE_DIR_NAME := 0x2
  FILE_NOTIFY_CHANGE_ATTRIBUTES := 0x4
  FILE_NOTIFY_CHANGE_SIZE := 0x8
  FILE_NOTIFY_CHANGE_LAST_WRITE := 0x10
  FILE_NOTIFY_CHANGE_SECURITY := 0x100
  FILE_ACTION_ADDED := 1
  FILE_ACTION_REMOVED := 2
  FILE_ACTION_MODIFIED := 3
  FILE_ACTION_RENAMED_OLD_NAME := 4
  FILE_ACTION_RENAMED_NEW_NAME := 5
  INVALID_HANDLE_VALUE := -1
  WAIT_OBJECT_0 := 0
  ERROR_IO_PENDING := 997
  INFINITE := 0xFFFFFFFF

/-- The six `FILE_NOTIFY_CHANGE_*` constants in the order of the `SWF_*` flags
(file name, directory name, attributes, size, last write, security). -/
def WinConsts.notifyBit (K : WinConsts) (i : Fin 6) : Nat :=
  match i with
  | 0 => K.FILE_NOTIFY_CHANGE_FILE_NAME
  | 1 => K.FILE_NOTIFY_CHANGE_DIR_NAME
  | 2 => K.FILE_NOTIFY_CHANGE_ATTRIBUTES
  | 3 => K.FILE_NOTIFY_CHANGE_SIZE
  | 4 => K.FILE_NOTIFY_CHANGE_LAST_WRITE
  | 5 => K.FILE_NOTIFY_CHANGE_SECURITY

/-- The five `FILE_ACTION_*` codes, the case labels of `action_to_event_type`. -/
def WinConsts.actionCodes (K : WinConsts) : List Nat :=
  [K.FILE_ACTION_ADDED, K.FILE_ACTION_REMOVED, K.FILE_ACTION_MODIFIED,
   K.FILE_ACTION_RENAMED_OLD_NAME, K.FILE_ACTION_RENAMED_NEW_NAME]

def SWE_FILE_ADDED : Int := 1
def SWE_FILE_REMOVED : Int := 2
def SWE_FILE_MODIFIED : Int := 3
def SWE_FILE_RENAMED : Int := 4

def SWF_FILE_NAME : Int := 0x0001
def SWF_DIR_NAME : Int := 0x0002
def SWF_ATTRIBUTES : Int := 0x0004
def SWF_SIZE : Int := 0x0008
def SWF_LAST_WRITE : Int := 0x0010
def SWF_SECURITY : Int := 0x0020
def SWF_ALL : Int := 0x003F

/-! ## Pure helpers -/

/-- Bit pattern of a 32-bit `int`: its value modulo `2^32`, as a natural number. -/
def bits32 (x : Int) : Nat := (x % 2 ^ 32).toNat

/-- C's `a & b` on two `int`s, as the bit pattern of the result; the result is
non-zero exactly when the pattern is. -/
def int_and (a b : Int) : Nat := bits32 a &&& bits32 b

/-- Embedding of `flags_to_filter`: six tests `flags & SWF_X`, the filter a
`DWORD` built with `|=`. -/
def flags_to_filter (K : WinConsts) (flags : Int) : Nat :=
  let filter : Nat := 0
  let filter := if int_and flags SWF_FILE_NAME ≠ 0 then filter ||| K.FILE_NOTIFY_CHANGE_FILE_NAME else filter
  let filter := if int_and flags SWF_DIR_NAME ≠ 0 then filter ||| K.FILE_NOTIFY_CHANGE_DIR_NAME else filter
  let filter := if int_and flags SWF_ATTRIBUTES ≠ 0 then filter ||| K.FILE_NOTIFY_CHANGE_ATTRIBUTES else filter
  let filter := if int_and flags SWF_SIZE ≠ 0 then filter ||| K.FILE_NOTIFY_CHANGE_SIZE else filter
  let filter := if int_and flags SWF_LAST_WRITE ≠ 0 then filter ||| K.FILE_NOTIFY_CHANGE_LAST_WRITE else filter
  let filter := if int_and flags SWF_SECURITY ≠ 0 then filter ||| K.FILE_NOTIFY_CHANGE_SECURITY else filter
  filter

/-- Embedding of `action_to_event_type`: the `switch` tried label by label. -/
def action_to_event_type (K : WinConsts) (action : Nat) : Int :=
  if action = K.FILE_ACTION_ADDED then SWE_FILE_ADDED
  else if action = K.FILE_ACTION_REMOVED then SWE_FILE_REMOVED
  else if action = K.FILE_ACTION_MODIFIED then SWE_FILE_MODIFIED
  else if action = K.FILE_ACTION_RENAMED_OLD_NAME then SWE_FILE_RENAMED
  else if action = K.FILE_ACTION_RENAMED_NEW_NAME then SWE_FILE_RENAMED
  else SWE_FILE_MODIFIED

/-! ## Data model -/

/-- The `sw_event` structure of the header. -/
structure sw_event where
  event_type : Int
  filename : Option String
  old_filename : Option String
deriving DecidableEq, Repr

/-- The Windows `sw_watcher` structure of the header.  Of `overlapped` only the
`hEvent` member is touched by the code; `buffer` is the byte array the kernel
fills when a read completes. -/
structure sw_watcher where
  directory_handle : Int
  event_handle : Int
  overlapped_hEvent : Int
  watch_path : Option String
  watch_subtree : Int
  filter : Nat
  buffer : List Nat
  is_watching : Int
  pending_event : Option sw_event
  error_message : Option String
deriving DecidableEq, Repr

/-- A record of the notification buffer (`FILE_NOTIFY_INFORMATION` of
`<windows.h>`): three `DWORD`s followed by the name in 16-bit units. -/
structure FILE_NOTIFY_INFORMATION where
  NextEntryOffset : Nat
  Action : Nat
  FileNameLength : Nat
  FileName : List Nat
deriving DecidableEq, Repr

/-- Little-endian `DWORD` at byte offset `off` (bytes past the end read as 0). -/
def read_dword (buf : List Nat) (off : Nat) : Nat :=
  buf.getD off 0 + 256 * buf.getD (off + 1) 0 + 65536 * buf.getD (off + 2) 0
    + 16777216 * buf.getD (off + 3) 0

/-- Little-endian `WCHAR` at byte offset `off`. -/
def read_wchar (buf : List Nat) (off : Nat) : Nat :=
  buf.getD off 0 + 256 * buf.getD (off + 1) 0

/-- The view `(FILE_NOTIFY_INFORMATION*)(buffer + off)`: header fields at
offsets 0, 4 and 8, the name from offset 12, of which the code uses
`FileNameLength / sizeof(WCHAR)` units. -/
def info_at (buf : List Nat) (off : Nat) : FILE_NOTIFY_INFORMATION :=
  let len := read_dword buf (off + 8)
  { NextEntryOffset := read_dword buf off
    Action := read_dword buf (off + 4)
    FileNameLength := len
    FileName := (List.range (len / 2)).map (fun i => read_wchar buf (off + 12 + 2 * i)) }

/-! ## The operating system -/

/-- Allocation requests: the three `malloc` calls (the handle object, an event,
a name of `size` bytes) and the two uses of `_strdup` (the copy stored in
`watch_path`, the copy stored in `error_message`). -/
inductive Alloc
  | watcher
  | event
  | filename (size : Nat)
  | watch_path
  | error_message
deriving DecidableEq, Repr

/-- What the operating system and the allocator answer during one API call. -/
structure OS where
  malloc : Alloc → Bool
  CreateFileA : String → Int
  CreateEvent : Int
  ReadDirectoryChangesW : Int → Nat → Int → Nat → Int → Bool
  GetLastError : Nat
  FormatMessageA : Nat → Option String
  WaitForSingleObject : Int → Nat → Nat
  GetOverlappedResult : Int → Int → Option Nat
  WideCharToMultiByte : List Nat → String

/-- A heap block handed to `free`: a string, an `sw_event` or the `sw_watcher`
object itself. -/
inductive HeapBlock
  | chars (s : String)
  | event_struct
  | watcher_struct
deriving DecidableEq, Repr

/-- Calls on kernel objects, with their arguments and answers, and releases of
heap blocks, in the order made.  `ReadDirectoryChangesW dir size subtree filter
hEvent result err` carries the `BOOL` returned and the thread's last-error code
after the call; `GetOverlappedResult dir hEvent r` has `r = some n` for `TRUE`
with `n` bytes. -/
inductive OsCall
  | CreateFileA (path : String) (result : Int)
  | CreateEvent (result : Int)
  | CloseHandle (h : Int)
  | CancelIo (h : Int)
  | ResetEvent (h : Int)
  | ReadDirectoryChangesW (dir : Int) (size : Nat) (subtree : Int) (filter : Nat)
      (hEvent : Int) (result : Bool) (err : Nat)
  | WaitForSingleObject (h : Int) (timeout : Nat) (result : Nat)
  | GetOverlappedResult (dir : Int) (hEvent : Int) (result : Option Nat)
  | free (block : HeapBlock)
deriving DecidableEq, Repr

/-- Result of an API call on a handle: the value returned, the object the
handle points to afterwards, the static `last_error_msg` afterwards, and the
calls made. -/
structure Outcome (α : Type) where
  ret : α
  watcher : Option sw_watcher
  last_error_msg : String
  calls : List OsCall

/-- Embedding of `store_last_error`: `FormatMessageA` overwrites the static
buffer `last_error_msg`; when it fails the buffer keeps its content. -/
def store_last_error (os : OS) (last_error_msg : String) : String :=
  match os.FormatMessageA os.GetLastError with
  | some msg => msg
  | none => last_error_msg

/-- Embedding of the library call `_strdup` made for the field `site`: a copy
of `s`, or `NULL` when the copy cannot be allocated. -/
def _strdup (os : OS) (site : Alloc) (s : String) : Option String :=
  if os.malloc site = true then some s else none

/-- The statement `if (p) free(p);` on a string pointer. -/
def free_chars (p : Option String) : List OsCall :=
  match p with
  | some s => [OsCall.free (HeapBlock.chars s)]
  | none => []

/-- The object after `memset(w, 0, sizeof(sw_watcher))`. -/
def zeroed : sw_watcher where
  directory_handle := 0
  event_handle := 0
  overlapped_hEvent := 0
  watch_path := none
  watch_subtree := 0
  filter := 0
  buffer := List.replicate 8192 0
  is_watching := 0
  pending_event := none
  error_message := none

/-! ## The API -/

/-- Embedding of `sw_create`.  `ret` is the pointer returned (`watcher` is the
same object). -/
def sw_create (K : WinConsts) (os : OS) (last_error_msg : String)
    (path : String) (watch_subtree : Int) (flags : Int) : Outcome (Option sw_watcher) :=
  if os.malloc Alloc.watcher = false then ⟨none, none, last_error_msg, []⟩
  else
    let w : sw_watcher := { zeroed with
      watch_path := _strdup os Alloc.watch_path path
      watch_subtree := watch_subtree
      filter := flags_to_filter K flags }
    let w := { w with directory_handle := os.CreateFileA path }
    let c1 := [OsCall.CreateFileA path w.directory_handle]
    if w.directory_handle = K.INVALID_HANDLE_VALUE then
      let msg := store_last_error os last_error_msg
      let w := { w with error_message := _strdup os Alloc.error_message msg }
      ⟨some w, some w, msg, c1⟩
    else
      let w := { w with event_handle := os.CreateEvent }
      let c2 := c1 ++ [OsCall.CreateEvent w.event_handle]
      if w.event_handle = 0 then
        let msg := store_last_error os last_error_msg
        let w := { w with error_message := _strdup os Alloc.error_message msg }
        let c3 := c2 ++ [OsCall.CloseHandle w.directory_handle]
        let w := { w with directory_handle := K.INVALID_HANDLE_VALUE }
        ⟨some w, some w, msg, c3⟩
      else
        let w := { w with overlapped_hEvent := w.event_handle }
        ⟨some w, some w, last_error_msg, c2⟩

/-- Embedding of `sw_start`. -/
def sw_start (K : WinConsts) (os : OS) (last_error_msg : String)
    (watcher : Option sw_watcher) : Outcome Int :=
  match watcher with
  | none => ⟨0, none, last_error_msg, []⟩
  | some w =>
    if w.directory_handle = K.INVALID_HANDLE_VALUE then ⟨0, some w, last_error_msg, []⟩
    else
      let result := os.ReadDirectoryChangesW w.directory_handle 8192 w.watch_subtree
        w.filter w.overlapped_hEvent
      let calls := [OsCall.ResetEvent w.event_handle,
        OsCall.ReadDirectoryChangesW w.directory_handle 8192 w.watch_subtree w.filter
          w.overlapped_hEvent result os.GetLastError]
      if result = false ∧ os.GetLastError ≠ K.ERROR_IO_PENDING then
        let msg := store_last_error os last_error_msg
        let calls := calls ++ free_chars w.error_message
        ⟨0, some { w with error_message := _strdup os Alloc.error_message msg }, msg, calls⟩
      else
        ⟨1, some { w with is_watching := 1 }, last_error_msg, calls⟩

/-- Embedding of `process_notification` (the `watcher` argument is unused by
the source): `none` when the event cannot be allocated; the name is left
`NULL` when its buffer cannot be allocated. -/
def process_notification (K : WinConsts) (os : OS) (info : FILE_NOTIFY_INFORMATION) :
    Option sw_event :=
  if os.malloc Alloc.event = false then none
  else
    let event : sw_event := { event_type := 0, filename := none, old_filename := none }
    let event := { event with event_type := action_to_event_type K info.Action }
    let name := os.WideCharToMultiByte info.FileName
    let filename_len := name.utf8ByteSize
    if os.malloc (Alloc.filename (filename_len + 1)) then
      some { event with filename := some name }
    else some event

/-- Embedding of `sw_poll`. -/
def sw_poll (K : WinConsts) (os : OS) (last_error_msg : String)
    (watcher : Option sw_watcher) : Outcome (Option sw_event) :=
  match watcher with
  | none => ⟨none, none, last_error_msg, []⟩
  | some w =>
    if w.is_watching = 0 then ⟨none, some w, last_error_msg, []⟩
    else
      let wait_result := os.WaitForSingleObject w.event_handle 0
      let c1 := [OsCall.WaitForSingleObject w.event_handle 0 wait_result]
      if wait_result ≠ K.WAIT_OBJECT_0 then ⟨none, some w, last_error_msg, c1⟩
      else
        let ov := os.GetOverlappedResult w.directory_handle w.overlapped_hEvent
        let c2 := c1 ++ [OsCall.GetOverlappedResult w.directory_handle w.overlapped_hEvent ov]
        match ov with
        | none => ⟨none, some w, last_error_msg, c2⟩
        | some bytes_returned =>
          if bytes_returned = 0 then
            let r := sw_start K os last_error_msg (some w)
            ⟨none, r.watcher, r.last_error_msg, c2 ++ r.calls⟩
          else
            let info := info_at w.buffer 0
            let event := process_notification K os info
            let r := sw_start K os last_error_msg (some w)
            ⟨event, r.watcher, r.last_error_msg, c2 ++ r.calls⟩

/-- Embedding of `sw_wait`. -/
def sw_wait (K : WinConsts) (os : OS) (last_error_msg : String)
    (watcher : Option sw_watcher) (timeout_ms : Int) : Outcome (Option sw_event) :=
  match watcher with
  | none => ⟨none, none, last_error_msg, []⟩
  | some w =>
    if w.is_watching = 0 then ⟨none, some w, last_error_msg, []⟩
    else
      let timeout := if timeout_ms < 0 then K.INFINITE else bits32 timeout_ms
      let wait_result := os.WaitForSingleObject w.event_handle timeout
      let c1 := [OsCall.WaitForSingleObject w.event_handle timeout wait_result]
      if wait_result ≠ K.WAIT_OBJECT_0 then ⟨none, some w, last_error_msg, c1⟩
      else
        let ov := os.GetOverlappedResult w.directory_handle w.overlapped_hEvent
        let c2 := c1 ++ [OsCall.GetOverlappedResult w.directory_handle w.overlapped_hEvent ov]
        match ov with
        | none => ⟨none, some w, last_error_msg, c2⟩
        | some bytes_returned =>
          if bytes_returned = 0 then
            let r := sw_start K os last_error_msg (some w)
            ⟨none, r.watcher, r.last_error_msg, c2 ++ r.calls⟩
          else
            let info := info_at w.buffer 0
            let event := process_notification K os info
            let r := sw_start K os last_error_msg (some w)
            ⟨event, r.watcher, r.last_error_msg, c2 ++ r.calls⟩

/-- Embedding of `sw_is_watching`. -/
def sw_is_watching (watcher : Option sw_watcher) : Int :=
  match watcher with
  | some w => w.is_watching
  | none => 0

/-- Embedding of `sw_get_path`. -/
def sw_get_path (watcher : Option sw_watcher) : Option String :=
  match watcher with
  | some w => w.watch_path
  | none => none

/-- Embedding of `sw_get_error`. -/
def sw_get_error (watcher : Option sw_watcher) : Option String :=
  match watcher with
  | some w => w.error_message
  | none => none

/-- Embedding of `sw_free_event`, as the releases it makes. -/
def sw_free_event (event : Option sw_event) : List OsCall :=
  match event with
  | none => []
  | some e =>
    free_chars e.filename ++ free_chars e.old_filename ++ [OsCall.free HeapBlock.event_struct]

/-- Embedding of `sw_close`, as the calls it makes.  The last one releases the
object itself: after the call a non-null handle points to freed memory. -/
def sw_close (K : WinConsts) (watcher : Option sw_watcher) : List OsCall :=
  match watcher with
  | none => []
  | some w =>
    (if w.directory_handle ≠ K.INVALID_HANDLE_VALUE then
      [OsCall.CancelIo w.directory_handle, OsCall.CloseHandle w.directory_handle] else [])
    ++ (if w.event_handle ≠ 0 then [OsCall.CloseHandle w.event_handle] else [])
    ++ free_chars w.watch_path
    ++ free_chars w.error_message
    ++ sw_free_event w.pending_event
    ++ [OsCall.free HeapBlock.watcher_struct]

/-! ## Runs of a handle -/

/-- The OS takes the read issued by `sw_start` on `w`: `ReadDirectoryChangesW`
returns `TRUE` (completed at once) or fails with `ERROR_IO_PENDING`. -/
def read_accepted (K : WinConsts) (os : OS) (w : sw_watcher) : Bool :=
  os.ReadDirectoryChangesW w.directory_handle 8192 w.watch_subtree w.filter w.overlapped_hEvent
    || decide (os.GetLastError = K.ERROR_IO_PENDING)

/-- Whether a traced call is a `ReadDirectoryChangesW`. -/
def is_read : OsCall → Bool
  | OsCall.ReadDirectoryChangesW _ _ _ _ _ _ _ => true
  | _ => false

/-- Number of directory reads issued in a trace. -/
def reads_issued (calls : List OsCall) : Nat := (calls.filter is_read).length

/-- What can happen to a created handle: the three API calls that arm and
consume reads, each under its own OS behaviour, and the kernel completing a
read by storing `bytes` in the handle's buffer. -/
inductive Op
  | start (os : OS)
  | poll (os : OS)
  | wait (os : OS) (timeout_ms : Int)
  | completion (bytes : List Nat)

/-- A handle with the static `last_error_msg` and the calls made so far. -/
structure Sys where
  watcher : Option sw_watcher
  last_error_msg : String
  calls : List OsCall

/-- The state right after `sw_create`. -/
def created (K : WinConsts) (os : OS) (last_error_msg : String)
    (path : String) (watch_subtree : Int) (flags : Int) : Sys :=
  let r := sw_create K os last_error_msg path watch_subtree flags
  ⟨r.watcher, r.last_error_msg, r.calls⟩

/-- One operation applied to a state. -/
def step (K : WinConsts) (s : Sys) : Op → Sys
  | Op.start os =>
    let r := sw_start K os s.last_error_msg s.watcher
    ⟨r.watcher, r.last_error_msg, s.calls ++ r.calls⟩
  | Op.poll os =>
    let r := sw_poll K os s.last_error_msg s.watcher
    ⟨r.watcher, r.last_error_msg, s.calls ++ r.calls⟩
  | Op.wait os timeout_ms =>
    let r := sw_wait K os s.last_error_msg s.watcher timeout_ms
    ⟨r.watcher, r.last_error_msg, s.calls ++ r.calls⟩
  | Op.completion bytes =>
    ⟨s.watcher.map (fun w => { w with buffer := bytes }), s.last_error_msg, s.calls⟩

/-- A sequence of operations applied in order. -/
def run (K : WinConsts) (s : Sys) (ops : List Op) : Sys := ops.foldl (step K) s

/-- The handle states that `sw_create` followed by any sequence of operations
can produce. -/
def Reachable (K : WinConsts) (w : sw_watcher) : Prop :=
  ∃ (os : OS) (msg path : String) (subtree flags : Int) (ops : List Op),
    (run K (created K os msg path subtree flags) ops).watcher = some w

/-- Effect of one traced call on the number of outstanding reads: a read the OS
takes (`TRUE`, or `FALSE` with `ERROR_IO_PENDING`) is outstanding from then on,
until a `GetOverlappedResult` reports a completion. -/
def tick (K : WinConsts) (n : Nat) (c : OsCall) : Nat :=
  match c with
  | OsCall.ReadDirectoryChangesW _ _ _ _ _ result err =>
    if result = true ∨ err = K.ERROR_IO_PENDING then n + 1 else n
  | OsCall.GetOverlappedResult _ _ (some _) => n - 1
  | _ => n

/-- Number of reads outstanding after a trace of calls. -/
def outstanding (K : WinConsts) (calls : List OsCall) : Nat := calls.foldl (tick K) 0

/-- Whether an operation is a `sw_start` call. -/
def is_start : Op → Bool
  | Op.start _ => true
  | _ => false

/-- In the run of `ops` from `s`, no `sw_start` is called while a read is
outstanding. -/
def guarded (K : WinConsts) : Sys → List Op → Bool
  | _, [] => true
  | s, op :: ops =>
    (!is_start op || decide (outstanding K s.calls = 0)) && guarded K (step K s op) ops

/-- State invariant of a handle: `is_watching` is 0 or 1, and it is 1 only on a
handle whose directory handle is valid. -/
def Inv (K : WinConsts) (w : sw_watcher) : Prop :=
  (w.is_watching = 0 ∨ w.is_watching = 1) ∧
  (w.is_watching ≠ 0 → w.directory_handle ≠ K.INVALID_HANDLE_VALUE)

/-- The invariant on a possibly null handle. -/
def InvO (K : WinConsts) (o : Option sw_watcher) : Prop := ∀ w, o = some w → Inv K w

/-! ## The record chain of a buffer -/

/-- The records of a buffer in chain order, starting at byte offset `off`: each
record is followed by the one `NextEntryOffset` bytes further, and the chain
ends at the record whose `NextEntryOffset` is 0 (`fuel` bounds the walk; a
buffer of `n` bytes holds fewer than `n` records). -/
def records (buf : List Nat) : Nat → Nat → List FILE_NOTIFY_INFORMATION
  | 0, _ => []
  | fuel + 1, off =>
    let r := info_at buf off
    if r.NextEntryOffset = 0 then [r]
    else r :: records buf fuel (off + r.NextEntryOffset)

/-- The events a completed read stands for: one per record of the chain, in
buffer order. -/
def chain_events (K : WinConsts) (os : OS) (buf : List Nat) : List sw_event :=
  (records buf buf.length 0).filterMap (process_notification K os)

/-! ## Handles and freed memory -/

/-- What a `sw_watcher*` held by a caller refers to: nothing (`NULL`), a live
object, or the memory of an object that `sw_close` has released. -/
inductive Handle
  | null
  | live (w : sw_watcher)
  | freed
deriving DecidableEq

/-- Reading or writing through a pointer to released memory. -/
inductive Fault
  | use_after_free
deriving DecidableEq, Repr

/-- The call `sw_close(h)`: undefined on released memory; otherwise the calls
of `sw_close`, after which a non-null handle refers to released memory. -/
def call_sw_close (K : WinConsts) : Handle → Except Fault (Handle × List OsCall)
  | Handle.null => Except.ok (Handle.null, sw_close K none)
  | Handle.live w => Except.ok (Handle.freed, sw_close K (some w))
  | Handle.freed => Except.error Fault.use_after_free

/-- The call `sw_get_error(h)`. -/
def call_sw_get_error : Handle → Except Fault (Option String)
  | Handle.null => Except.ok (sw_get_error none)
  | Handle.live w => Except.ok (sw_get_error (some w))
  | Handle.freed => Except.error Fault.use_after_free

/-- The call `sw_is_watching(h)`. -/
def call_sw_is_watching : Handle → Except Fault Int
  | Handle.null => Except.ok (sw_is_watching none)
  | Handle.live w => Except.ok (sw_is_watching (some w))
  | Handle.freed => Except.error Fault.use_after_free

/-- The call `sw_close(h)` made twice on the same pointer: the calls of both,
and what the pointer refers to afterwards. -/
def close_twice (K : WinConsts) (h : Handle) : Except Fault (Handle × List OsCall) :=
  match call_sw_close K h with
  | Except.error f => Except.error f
  | Except.ok (h1, c1) =>
    match call_sw_close K h1 with
    | Except.error f => Except.error f
    | Except.ok (h2, c2) => Except.ok (h2, c1 ++ c2)

/-- The call `sw_close(h)` followed by `sw_get_error(h)`. -/
def close_then_get_error (K : WinConsts) (h : Handle) : Except Fault (Option String) :=
  match call_sw_close K h with
  | Except.error f => Except.error f
  | Except.ok (h1, _) => call_sw_get_error h1

/-! ## Auxiliary predicates -/

/-- The `i`-th `SWF_*` flag (file name, directory name, attributes, size, last
write, security). -/
def swf (i : Fin 6) : Int :=
  match i with
  | 0 => SWF_FILE_NAME
  | 1 => SWF_DIR_NAME
  | 2 => SWF_ATTRIBUTES
  | 3 => SWF_SIZE
  | 4 => SWF_LAST_WRITE
  | 5 => SWF_SECURITY

/-- Bit positions of the six `FILE_NOTIFY_CHANGE_*` values of the Windows SDK. -/
def win32_notify_pos (i : Fin 6) : Nat :=
  match i with
  | 0 => 0
  | 1 => 1
  | 2 => 2
  | 3 => 3
  | 4 => 4
  | 5 => 8

/-- Whether a traced call is a `GetOverlappedResult` that reported completion. -/
def is_fetch : OsCall → Bool
  | OsCall.GetOverlappedResult _ _ (some _) => true
  | _ => false

/-- The operation is an API call made under the OS behaviour `os`. -/
def op_under (os : OS) (op : Op) : Prop :=
  op = Op.start os ∨ op = Op.poll os ∨ ∃ t, op = Op.wait os t

/-- A handle on which creation failed: never watching, directory handle
invalid, error field `e`. -/
def FailedWith (K : WinConsts) (e : Option String) (o : Option sw_watcher) : Prop :=
  ∃ w, o = some w ∧ w.directory_handle = K.INVALID_HANDLE_VALUE ∧ w.is_watching = 0 ∧
    w.error_message = e

/-- The string copy an operation may need (the copy of the error text of a
rejected read) can be allocated. -/
def copy_ok : Op → Bool
  | Op.start os => os.malloc Alloc.error_message
  | Op.poll os => os.malloc Alloc.error_message
  | Op.wait os _ => os.malloc Alloc.error_message
  | Op.completion _ => true

/-! ## Concrete OS behaviours used as test inputs -/

/-- Every call succeeds: the directory opens as handle 100, the event object is
handle 200, reads are taken as pending, the event is signalled and the
completed read reports 32 bytes. -/
def os_ok : OS where
  malloc := fun _ => true
  CreateFileA := fun _ => 100
  CreateEvent := 200
  ReadDirectoryChangesW := fun _ _ _ _ _ => false
  GetLastError := 997
  FormatMessageA := fun _ => some "Overlapped I/O operation is in progress."
  WaitForSingleObject := fun _ _ => 0
  GetOverlappedResult := fun _ _ => some 32
  WideCharToMultiByte := fun ws => String.mk (ws.map Char.ofNat)

/-- As `os_ok`, but the directory cannot be opened (error 3). -/
def os_no_dir : OS :=
  { os_ok with
    CreateFileA := fun _ => -1
    GetLastError := 3
    FormatMessageA := fun _ => some "The system cannot find the path specified." }

/-- As `os_ok`, but the completed read reports 0 bytes (buffer overflow). -/
def os_overflow : OS :=
  { os_ok with GetOverlappedResult := fun _ _ => some 0 }

/-- As `os_no_dir`, with the heap exhausted once the handle object has been
allocated: both string copies fail. -/
def os_no_dir_no_copy : OS :=
  { os_no_dir with malloc := fun a => decide (a = Alloc.watcher) }

/-- As `os_ok`, but reads are rejected with error `code`, whose text is `text`. -/
def os_reject (code : Nat) (text : String) : OS :=
  { os_ok with
    GetLastError := code
    FormatMessageA := fun _ => some text }

/-- As `os_reject 5 "Access is denied."`, with the heap exhausted: the copy of
the error text fails. -/
def os_reject_no_copy : OS :=
  { os_reject 5 "Access is denied." with malloc := fun _ => false }

/-- As `os_ok`, but the event is not signalled: waits time out (258). -/
def os_idle : OS :=
  { os_ok with WaitForSingleObject := fun _ _ => 258 }

/-- Two notification records as the kernel lays them out: at offset 0 a record
with next-entry offset 16, action 1 (added) and the 2-byte name "a"; at offset
16 a record with next-entry offset 0, action 2 (removed) and the name "b". -/
def two_records : List Nat :=
  [16, 0, 0, 0,  1, 0, 0, 0,  2, 0, 0, 0,  97, 0,  0, 0,
   0, 0, 0, 0,  2, 0, 0, 0,  2, 0, 0, 0,  98, 0,  0, 0]

/-- The handle `sw_create` returns for an existing directory under `os_ok`. -/
def w_created : sw_watcher :=
  { zeroed with
    directory_handle := 100
    event_handle := 200
    overlapped_hEvent := 200
    watch_path := some "C:/watched"
    filter := 0x11F }

/-- The handle `w_created` after an accepted `sw_start`. -/
def w_watching : sw_watcher := { w_created with is_watching := 1 }

/-! ## Releases of strings -/

theorem mem_free_chars (p : Option String) (c : OsCall) :
    c ∈ free_chars p ↔ ∃ s, p = some s ∧ c = OsCall.free (HeapBlock.chars s) := by
  cases p with
  | none => simp [free_chars]
  | some s => simp [free_chars]

theorem filter_free_chars (f : OsCall → Bool) (p : Option String)
    (hf : ∀ b, f (OsCall.free b) = false) : (free_chars p).filter f = [] := by
  cases p with
  | none => rfl
  | some s => simp [free_chars, hf]

theorem filter_sw_free_event (f : OsCall → Bool) (e : Option sw_event)
    (hf : ∀ b, f (OsCall.free b) = false) : (sw_free_event e).filter f = [] := by
  cases e with
  | none => rfl
  | some e => simp [sw_free_event, filter_free_chars f _ hf, hf]

theorem foldl_tick_free_chars (K : WinConsts) (p : Option String) (n : Nat) :
    (free_chars p).foldl (tick K) n = n := by
  cases p with
  | none => rfl
  | some s => rfl

/-! ## Normal form of `sw_start` -/

theorem sw_start_some (K : WinConsts) (os : OS) (msg : String) (w : sw_watcher) :
    sw_start K os msg (some w) =
      if w.directory_handle = K.INVALID_HANDLE_VALUE then ⟨0, some w, msg, []⟩
      else if read_accepted K os w = true then
        ⟨1, some { w with is_watching := 1 }, msg,
          [OsCall.ResetEvent w.event_handle,
           OsCall.ReadDirectoryChangesW w.directory_handle 8192 w.watch_subtree w.filter
             w.overlapped_hEvent
             (os.ReadDirectoryChangesW w.directory_handle 8192 w.watch_subtree w.filter
               w.overlapped_hEvent) os.GetLastError]⟩
      else
        ⟨0, some { w with
            error_message := _strdup os Alloc.error_message (store_last_error os msg) },
          store_last_error os msg,
          [OsCall.ResetEvent w.event_handle,
           OsCall.ReadDirectoryChangesW w.directory_handle 8192 w.watch_subtree w.filter
             w.overlapped_hEvent
             (os.ReadDirectoryChangesW w.directory_handle 8192 w.watch_subtree w.filter
               w.overlapped_hEvent) os.GetLastError] ++ free_chars w.error_message⟩ := by
  simp only [sw_start, read_accepted, Bool.or_eq_true, decide_eq_true_eq]
  by_cases h1 : w.directory_handle = K.INVALID_HANDLE_VALUE
  · simp [h1]
  · simp only [if_neg h1]
    by_cases h2 : os.ReadDirectoryChangesW w.directory_handle 8192 w.watch_subtree w.filter
        w.overlapped_hEvent = true
    · simp [h2]
    · by_cases h3 : os.GetLastError = K.ERROR_IO_PENDING
      · simp [h2, h3]
      · simp [h2, h3]

/-! ## Filter and action mapping -/

theorem and_two_pow_ne_zero (x i : Nat) : x &&& 2 ^ i ≠ 0 ↔ x.testBit i = true := by
  constructor
  · intro h
    by_contra hb
    apply h
    apply Nat.eq_of_testBit_eq
    intro j
    rw [Nat.testBit_and, Nat.testBit_two_pow, Nat.zero_testBit]
    by_cases hij : i = j
    · subst hij; simp [hb]
    · simp [hij]
  · intro hb h
    have := congrArg (fun n => Nat.testBit n i) h
    simp [Nat.testBit_and, Nat.testBit_two_pow, hb] at this

theorem testBit_ite_or (c : Prop) [Decidable c] (x y b : Nat) :
    (if c then x ||| y else x).testBit b = (x.testBit b || (decide c && y.testBit b)) := by
  by_cases h : c <;> simp [h]

theorem int_and_swf (flags : Int) (i : Fin 6) :
    int_and flags (swf i) ≠ 0 ↔ (bits32 flags).testBit i = true := by
  have h : bits32 (swf i) = 2 ^ (i : Nat) := by
    fin_cases i <;> decide
  unfold int_and
  rw [h]
  exact and_two_pow_ne_zero _ _

theorem flags_to_filter_testBit (K : WinConsts) (p : Fin 6 → Nat)
    (hbit : ∀ i, K.notifyBit i = 2 ^ p i) (flags : Int) (b : Nat) :
    (flags_to_filter K flags).testBit b = true ↔
      ∃ i : Fin 6, b = p i ∧ (bits32 flags).testBit i = true := by
  have h0 := hbit 0
  have h1 := hbit 1
  have h2 := hbit 2
  have h3 := hbit 3
  have h4 := hbit 4
  have h5 := hbit 5
  simp only [WinConsts.notifyBit] at h0 h1 h2 h3 h4 h5
  have k0 := int_and_swf flags 0
  have k1 := int_and_swf flags 1
  have k2 := int_and_swf flags 2
  have k3 := int_and_swf flags 3
  have k4 := int_and_swf flags 4
  have k5 := int_and_swf flags 5
  simp only [swf] at k0 k1 k2 k3 k4 k5
  unfold flags_to_filter
  simp only [testBit_ite_or, h0, h1, h2, h3, h4, h5, Nat.testBit_two_pow, Nat.zero_testBit,
    Bool.or_eq_true, Bool.and_eq_true, decide_eq_true_eq, k0, k1, k2, k3, k4, k5,
    Bool.false_eq_true, false_or]
  constructor
  · rintro (((((h | h) | h) | h) | h) | h)
    · exact ⟨0, h.2.symm, h.1⟩
    · exact ⟨1, h.2.symm, h.1⟩
    · exact ⟨2, h.2.symm, h.1⟩
    · exact ⟨3, h.2.symm, h.1⟩
    · exact ⟨4, h.2.symm, h.1⟩
    · exact ⟨5, h.2.symm, h.1⟩
  · rintro ⟨i, hb, ht⟩
    subst hb
    fin_cases i
    · exact Or.inl (Or.inl (Or.inl (Or.inl (Or.inl ⟨ht, rfl⟩))))
    · exact Or.inl (Or.inl (Or.inl (Or.inl (Or.inr ⟨ht, rfl⟩))))
    · exact Or.inl (Or.inl (Or.inl (Or.inr ⟨ht, rfl⟩)))
    · exact Or.inl (Or.inl (Or.inr ⟨ht, rfl⟩))
    · exact Or.inl (Or.inr ⟨ht, rfl⟩)
    · exact Or.inr ⟨ht, rfl⟩

theorem flags_to_filter_congr (K : WinConsts) (flags flags' : Int)
    (h : ∀ i : Fin 6, (bits32 flags').testBit i = (bits32 flags).testBit i) :
    flags_to_filter K flags' = flags_to_filter K flags := by
  have k0 := int_and_swf flags 0
  have k1 := int_and_swf flags 1
  have k2 := int_and_swf flags 2
  have k3 := int_and_swf flags 3
  have k4 := int_and_swf flags 4
  have k5 := int_and_swf flags 5
  have j0 := int_and_swf flags' 0
  have j1 := int_and_swf flags' 1
  have j2 := int_and_swf flags' 2
  have j3 := int_and_swf flags' 3
  have j4 := int_and_swf flags' 4
  have j5 := int_and_swf flags' 5
  rw [h] at j0 j1 j2 j3 j4 j5
  simp only [swf] at k0 k1 k2 k3 k4 k5 j0 j1 j2 j3 j4 j5
  unfold flags_to_filter
  simp only [k0, k1, k2, k3, k4, k5, j0, j1, j2, j3, j4, j5]

/-- C5: when the six platform notification constants are distinct single bits
(`notifyBit i = 2 ^ p i`, `p` injective), the filter computed by
`flags_to_filter` has the platform bit of category `i` exactly when bit `i`
(value 0x1, 0x2, 0x4, 0x8, 0x10, 0x20) of `flags` is set, and has no other
bit; flags that agree on the bits of 0x3F give the same filter; `SWF_ALL`
selects exactly the six platform bits; `sw_create` stores this filter on the
handle it returns, and every read that `sw_start` issues on that handle asks
the OS for this filter. -/
theorem flags_to_filter_exact (K : WinConsts) (p : Fin 6 → Nat)
    (hbit : ∀ i, K.notifyBit i = 2 ^ p i) (hinj : ∀ i j, p i = p j → i = j) (flags : Int) :
    (∀ i : Fin 6, (flags_to_filter K flags).testBit (p i) = true ↔
        (bits32 flags).testBit i = true) ∧
    (∀ b, (flags_to_filter K flags).testBit b = true → ∃ i : Fin 6, b = p i) ∧
    (∀ flags' : Int, bits32 flags' &&& 0x3F = bits32 flags &&& 0x3F →
        flags_to_filter K flags' = flags_to_filter K flags) ∧
    (∀ b, (flags_to_filter K SWF_ALL).testBit b = true ↔ ∃ i : Fin 6, b = p i) ∧
    (∀ (os : OS) (msg path : String) (subtree : Int) (w : sw_watcher),
        (sw_create K os msg path subtree flags).ret = some w →
        w.filter = flags_to_filter K flags ∧
        ∀ (os1 : OS) (msg1 : String) (d : Int) (n : Nat) (st : Int) (f : Nat) (ev : Int)
          (r : Bool) (e : Nat),
          OsCall.ReadDirectoryChangesW d n st f ev r e ∈
            (sw_start K os1 msg1 (some w)).calls →
          f = flags_to_filter K flags) := by
  refine ⟨?_, ?_, ?_, ?_, ?_⟩
  · intro i
    rw [flags_to_filter_testBit K p hbit]
    constructor
    · rintro ⟨j, hj, ht⟩
      rw [hinj i j hj]
      exact ht
    · intro ht
      exact ⟨i, rfl, ht⟩
  · intro b hb
    obtain ⟨i, hi, _⟩ := (flags_to_filter_testBit K p hbit flags b).1 hb
    exact ⟨i, hi⟩
  · intro flags' h
    apply flags_to_filter_congr
    intro i
    have h63 : Nat.testBit 0x3F i = true := by
      fin_cases i <;> decide
    have e := congrArg (fun n => Nat.testBit n i) h
    simpa [Nat.testBit_and, h63] using e
  · intro b
    rw [flags_to_filter_testBit K p hbit]
    constructor
    · rintro ⟨i, hi, _⟩
      exact ⟨i, hi⟩
    · rintro ⟨i, hi⟩
      refine ⟨i, hi, ?_⟩
      fin_cases i <;> decide
  · intro os msg path subtree w hw
    have hf : w.filter = flags_to_filter K flags := by
      simp only [sw_create] at hw
      split_ifs at hw <;> simp at hw <;> subst hw <;> rfl
    refine ⟨hf, ?_⟩
    intro os1 msg1 d n st f ev r e hmem
    rw [sw_start_some] at hmem
    split_ifs at hmem
    · simp at hmem
    · simp at hmem; rw [← hf]; exact hmem.2.2.2.1
    · simp only [List.mem_append, List.mem_cons, List.mem_singleton, List.not_mem_nil,
        or_false, mem_free_chars] at hmem
      rcases hmem with (hm | hm) | ⟨t, -, hm⟩
      · simp at hm
      · simp only [OsCall.ReadDirectoryChangesW.injEq] at hm
        rw [← hf]; exact hm.2.2.2.1
      · simp at hm

theorem flags_to_filter_exact_witness :
    ((flags_to_filter win32 0x28).testBit 8 = true ↔ (bits32 0x28).testBit 5 = true) ∧
    ((flags_to_filter win32 0x28).testBit 2 = true ↔ (bits32 0x28).testBit 2 = true) :=
  ⟨(flags_to_filter_exact win32 win32_notify_pos (by decide) (by decide) 0x28).1 5,
   (flags_to_filter_exact win32 win32_notify_pos (by decide) (by decide) 0x28).1 2⟩

/-- C4: with pairwise distinct action codes (as the case labels of a `switch`
are), `action_to_event_type` maps created to Added (1), deleted to Removed
(2), modified to Modified (3), both rename codes to Renamed (4) and every
other code to Modified (3); every event built by `process_notification` has an
event kind among 1, 2, 3, 4. -/
theorem action_to_event_type_total (K : WinConsts) (hK : K.actionCodes.Nodup) :
    action_to_event_type K K.FILE_ACTION_ADDED = 1 ∧
    action_to_event_type K K.FILE_ACTION_REMOVED = 2 ∧
    action_to_event_type K K.FILE_ACTION_MODIFIED = 3 ∧
    action_to_event_type K K.FILE_ACTION_RENAMED_OLD_NAME = 4 ∧
    action_to_event_type K K.FILE_ACTION_RENAMED_NEW_NAME = 4 ∧
    (∀ action, action ∉ K.actionCodes → action_to_event_type K action = 3) ∧
    (∀ (os : OS) (info : FILE_NOTIFY_INFORMATION) (e : sw_event),
        process_notification K os info = some e →
        e.event_type = 1 ∨ e.event_type = 2 ∨ e.event_type = 3 ∨ e.event_type = 4) := by
  simp only [WinConsts.actionCodes, List.nodup_cons, List.mem_cons, List.mem_singleton,
    List.not_mem_nil, not_or, List.nodup_nil, or_false, not_false_eq_true, and_true] at hK
  obtain ⟨⟨h12, h13, h14, h15⟩, ⟨h23, h24, h25⟩, ⟨h34, h35⟩, h45⟩ := hK
  have range : ∀ a, action_to_event_type K a = 1 ∨ action_to_event_type K a = 2 ∨
      action_to_event_type K a = 3 ∨ action_to_event_type K a = 4 := by
    intro a
    unfold action_to_event_type
    split_ifs <;> simp [SWE_FILE_ADDED, SWE_FILE_REMOVED, SWE_FILE_MODIFIED, SWE_FILE_RENAMED]
  refine ⟨?_, ?_, ?_, ?_, ?_, ?_, ?_⟩
  · simp [action_to_event_type, SWE_FILE_ADDED]
  · simp [action_to_event_type, SWE_FILE_REMOVED, Ne.symm h12]
  · simp [action_to_event_type, SWE_FILE_MODIFIED, Ne.symm h13, Ne.symm h23]
  · simp [action_to_event_type, SWE_FILE_RENAMED, Ne.symm h14, Ne.symm h24, Ne.symm h34]
  · simp [action_to_event_type, SWE_FILE_RENAMED, Ne.symm h15, Ne.symm h25, Ne.symm h35,
      Ne.symm h45]
  · intro a ha
    simp only [WinConsts.actionCodes, List.mem_cons, List.mem_singleton, List.not_mem_nil,
      not_or, or_false] at ha
    obtain ⟨a1, a2, a3, a4, a5⟩ := ha
    simp [action_to_event_type, SWE_FILE_MODIFIED, a1, a2, a3, a4, a5]
  · intro os info e he
    simp only [process_notification] at he
    split_ifs at he <;> simp at he <;> subst he <;> exact range _

theorem action_to_event_type_total_witness :
    action_to_event_type win32 1 = 1 ∧ action_to_event_type win32 2 = 2 ∧
    action_to_event_type win32 3 = 3 ∧ action_to_event_type win32 4 = 4 ∧
    action_to_event_type win32 5 = 4 ∧ action_to_event_type win32 0 = 3 :=
  have h := action_to_event_type_total win32 (by decide)
  ⟨h.1, h.2.1, h.2.2.1, h.2.2.2.1, h.2.2.2.2.1, h.2.2.2.2.2.1 0 (by decide)⟩

/-! ## Creation and arming -/

theorem strdup_ok (os : OS) (site : Alloc) (t : String) (h : os.malloc site = true) :
    _strdup os site t = some t := by
  simp [_strdup, h]

theorem store_last_error_text (os : OS) (msg text : String)
    (h : os.FormatMessageA os.GetLastError = some text) : store_last_error os msg = text := by
  simp [store_last_error, h]

/-- C2 (counterexample): the directory cannot be opened and the heap is
exhausted once the handle object has been allocated.  `sw_create` returns a
non-null handle, but both `_strdup` calls returned `NULL`: `sw_get_error` and
`sw_get_path` return `NULL`, no message is recorded and the path is not kept. -/
theorem sw_create_copy_failure :
    OsCall.CreateFileA "C:/missing" win32.INVALID_HANDLE_VALUE ∈
      (sw_create win32 os_no_dir_no_copy "" "C:/missing" 0 0x3F).calls ∧
    (sw_create win32 os_no_dir_no_copy "" "C:/missing" 0 0x3F).ret ≠ none ∧
    sw_get_error (sw_create win32 os_no_dir_no_copy "" "C:/missing" 0 0x3F).ret = none ∧
    sw_get_path (sw_create win32 os_no_dir_no_copy "" "C:/missing" 0 0x3F).ret = none := by
  refine ⟨?_, ?_, ?_, ?_⟩ <;> decide

/-- C2 (amended): when the directory open is made and fails, or the event
object creation is made and fails (the calls appear in the trace of
`sw_create` with a failing answer; they are made once the handle object is
allocated), `sw_create` returns a non-null handle with `sw_is_watching` 0 and
the directory handle `INVALID_HANDLE_VALUE`; when the copy of the error text
can be allocated, `sw_get_error` returns the text `FormatMessageA` produced
(the previous content of the static buffer when it produced none); when the
copy of the path can be allocated, `sw_get_path` returns the requested path. -/
theorem sw_create_failed_handle (K : WinConsts) (os : OS) (msg path : String)
    (subtree flags : Int)
    (hfail : OsCall.CreateFileA path K.INVALID_HANDLE_VALUE ∈
        (sw_create K os msg path subtree flags).calls ∨
      OsCall.CreateEvent 0 ∈ (sw_create K os msg path subtree flags).calls) :
    ∃ w : sw_watcher, (sw_create K os msg path subtree flags).ret = some w ∧
      sw_is_watching (some w) = 0 ∧
      w.directory_handle = K.INVALID_HANDLE_VALUE ∧
      (os.malloc Alloc.error_message = true →
        (∀ text, os.FormatMessageA os.GetLastError = some text →
          sw_get_error (some w) = some text) ∧
        (os.FormatMessageA os.GetLastError = none → sw_get_error (some w) = some msg)) ∧
      (os.malloc Alloc.watch_path = true → sw_get_path (some w) = some path) := by
  have herr : os.malloc Alloc.error_message = true →
      (∀ text, os.FormatMessageA os.GetLastError = some text →
        _strdup os Alloc.error_message (store_last_error os msg) = some text) ∧
      (os.FormatMessageA os.GetLastError = none →
        _strdup os Alloc.error_message (store_last_error os msg) = some msg) := by
    intro hm
    rw [strdup_ok os _ _ hm]
    constructor
    · intro text ht; rw [store_last_error_text os msg text ht]
    · intro hn; simp [store_last_error, hn]
  have hpath : os.malloc Alloc.watch_path = true →
      _strdup os Alloc.watch_path path = some path := strdup_ok os _ _
  simp only [sw_create] at hfail ⊢
  split_ifs at hfail ⊢ with h1 h2 h3
  · simp at hfail
  · exact ⟨_, rfl, rfl, h2, herr, hpath⟩
  · exact ⟨_, rfl, rfl, rfl, herr, hpath⟩
  · exfalso
    simp at hfail
    rcases hfail with hf | hf
    · exact h2 hf.symm
    · exact h3 hf.symm

theorem sw_create_failed_handle_witness :
    sw_is_watching (sw_create win32 os_no_dir "" "C:/missing" 0 0x3F).ret = 0 ∧
    sw_get_error (sw_create win32 os_no_dir "" "C:/missing" 0 0x3F).ret =
      some "The system cannot find the path specified." ∧
    sw_get_path (sw_create win32 os_no_dir "" "C:/missing" 0 0x3F).ret =
      some "C:/missing" := by
  have h : OsCall.CreateFileA "C:/missing" win32.INVALID_HANDLE_VALUE ∈
      (sw_create win32 os_no_dir "" "C:/missing" 0 0x3F).calls := by decide
  obtain ⟨w, hw, h1, -, h3, h4⟩ :=
    sw_create_failed_handle win32 os_no_dir "" "C:/missing" 0 0x3F (Or.inl h)
  rw [hw]
  exact ⟨h1, (h3 rfl).1 _ rfl, h4 rfl⟩

/-- C3 (counterexample): the OS rejects the read (error 5) and the copy of the
error text cannot be allocated.  `sw_start` returns 0 and the handle's error
field is `NULL`: no error message is recorded. -/
theorem rejected_read_copy_failure :
    w_created.directory_handle ≠ win32.INVALID_HANDLE_VALUE ∧
    read_accepted win32 os_reject_no_copy w_created = false ∧
    (sw_start win32 os_reject_no_copy "" (some w_created)).ret = 0 ∧
    sw_get_error (sw_start win32 os_reject_no_copy "" (some w_created)).watcher = none := by
  refine ⟨?_, ?_, ?_, ?_⟩ <;> decide

/-- C3 (amended): on a handle with a valid directory handle, an accepted read
makes `sw_start` return 1 and `sw_is_watching` return 1 afterwards; `sw_start`
returns 0 exactly when the handle is null, its directory handle is invalid or
the OS rejects the read; after a rejected read the text `FormatMessageA`
produced (the previous content of the static buffer when it produced none) is
recorded on the handle when its copy can be allocated.  A handle returned by
`sw_create` has a valid directory handle exactly when both the open and the
event creation succeeded. -/
theorem sw_start_contract (K : WinConsts) (os : OS) (msg : String)
    (watcher : Option sw_watcher) :
    (∀ w, watcher = some w → w.directory_handle ≠ K.INVALID_HANDLE_VALUE →
        read_accepted K os w = true →
        (sw_start K os msg watcher).ret = 1 ∧
        sw_is_watching (sw_start K os msg watcher).watcher = 1) ∧
    ((sw_start K os msg watcher).ret = 0 ↔
        watcher = none ∨ ∃ w, watcher = some w ∧
          (w.directory_handle = K.INVALID_HANDLE_VALUE ∨ read_accepted K os w = false)) ∧
    ((sw_start K os msg watcher).ret = 0 ∨ (sw_start K os msg watcher).ret = 1) ∧
    (∀ w, watcher = some w → w.directory_handle ≠ K.INVALID_HANDLE_VALUE →
        read_accepted K os w = false → os.malloc Alloc.error_message = true →
        (∀ text, os.FormatMessageA os.GetLastError = some text →
          sw_get_error (sw_start K os msg watcher).watcher = some text) ∧
        (os.FormatMessageA os.GetLastError = none →
          sw_get_error (sw_start K os msg watcher).watcher = some msg)) ∧
    (∀ (os0 : OS) (msg0 path : String) (subtree flags : Int) (w : sw_watcher),
        (sw_create K os0 msg0 path subtree flags).ret = some w →
        (w.directory_handle ≠ K.INVALID_HANDLE_VALUE ↔
          os0.CreateFileA path ≠ K.INVALID_HANDLE_VALUE ∧ os0.CreateEvent ≠ 0)) := by
  refine ⟨?_, ?_, ?_, ?_, ?_⟩
  · intro w hw hd ha
    subst hw
    rw [sw_start_some, if_neg hd, if_pos ha]
    exact ⟨rfl, rfl⟩
  · cases watcher with
    | none => simp [sw_start]
    | some w =>
      rw [sw_start_some]
      split_ifs with h1 h2
      · simp [h1]
      · simp [h1, h2]
      · simp [h1, h2]
  · cases watcher with
    | none => simp [sw_start]
    | some w =>
      rw [sw_start_some]
      split_ifs <;> simp
  · intro w hw hd ha hm
    subst hw
    have hna : ¬ read_accepted K os w = true := by simp [ha]
    rw [sw_start_some, if_neg hd, if_neg hna]
    simp only [sw_get_error, strdup_ok os _ _ hm]
    constructor
    · intro text ht; rw [store_last_error_text os msg text ht]
    · intro hn; simp [store_last_error, hn]
  · intro os0 msg0 path subtree flags w hw
    simp only [sw_create] at hw
    split_ifs at hw with h1 h2 h3
    · simp only [Option.some.injEq] at hw
      subst hw
      simp [h2]
    · simp only [Option.some.injEq] at hw
      subst hw
      simp only [ne_eq, not_true_eq_false, false_iff, not_and, not_not]
      exact fun _ => h3
    · simp only [Option.some.injEq] at hw
      subst hw
      simp [h2, h3]

theorem sw_start_contract_witness :
    (sw_start win32 os_ok "" (some w_created)).ret = 1 ∧
    sw_is_watching (sw_start win32 os_ok "" (some w_created)).watcher = 1 ∧
    sw_get_error (sw_start win32 (os_reject 5 "Access is denied.") "" (some w_created)).watcher =
      some "Access is denied." :=
  ⟨((sw_start_contract win32 os_ok "" (some w_created)).1 w_created rfl (by decide) rfl).1,
   ((sw_start_contract win32 os_ok "" (some w_created)).1 w_created rfl (by decide) rfl).2,
   ((sw_start_contract win32 (os_reject 5 "Access is denied.") "" (some w_created)).2.2.2.1
      w_created rfl (by decide) rfl rfl).1 _ rfl⟩

/-! ## Polling and waiting -/

/-- C6: `sw_wait` with a zero timeout and `sw_poll` agree on every handle
(null, not watching or watching), every content of `last_error_msg` and every
OS behaviour: same event or none, same handle state afterwards, same static
error buffer, same sequence of OS calls. -/
theorem sw_wait_zero_eq_sw_poll (K : WinConsts) (os : OS) (msg : String)
    (watcher : Option sw_watcher) :
    sw_wait K os msg watcher 0 = sw_poll K os msg watcher := by
  have hz : bits32 0 = 0 := by decide
  cases watcher with
  | none => rfl
  | some w => simp [sw_wait, sw_poll, hz]

/-! ## Normal forms and the state invariant -/

theorem sw_poll_eq_sw_wait (K : WinConsts) (os : OS) (msg : String)
    (watcher : Option sw_watcher) :
    sw_poll K os msg watcher = sw_wait K os msg watcher 0 := by
  have hz : bits32 0 = 0 := by decide
  cases watcher with
  | none => rfl
  | some w => simp [sw_wait, sw_poll, hz]

theorem sw_wait_shape (K : WinConsts) (os : OS) (msg : String) (o : Option sw_watcher)
    (tm : Int) :
    ((sw_wait K os msg o tm).watcher = o ∧ (sw_wait K os msg o tm).last_error_msg = msg ∧
      (sw_wait K os msg o tm).ret = none ∧
      ∀ c ∈ (sw_wait K os msg o tm).calls, is_read c = false ∧ is_fetch c = false) ∨
    (∃ (w : sw_watcher) (t n : Nat), o = some w ∧ w.is_watching ≠ 0 ∧
      (sw_wait K os msg o tm).watcher = (sw_start K os msg o).watcher ∧
      (sw_wait K os msg o tm).last_error_msg = (sw_start K os msg o).last_error_msg ∧
      (sw_wait K os msg o tm).calls =
        [OsCall.WaitForSingleObject w.event_handle t K.WAIT_OBJECT_0,
         OsCall.GetOverlappedResult w.directory_handle w.overlapped_hEvent (some n)]
        ++ (sw_start K os msg o).calls) := by
  cases o with
  | none => left; simp [sw_wait]
  | some w =>
    simp only [sw_wait]
    generalize (if tm < 0 then K.INFINITE else bits32 tm) = t
    by_cases h1 : w.is_watching = 0
    · left; simp [h1]
    · simp only [if_neg h1]
      by_cases h2 : os.WaitForSingleObject w.event_handle t = K.WAIT_OBJECT_0
      · simp only [h2, ne_eq, not_true_eq_false, if_false]
        cases hov : os.GetOverlappedResult w.directory_handle w.overlapped_hEvent with
        | none => left; simp [is_read, is_fetch]
        | some n =>
          right
          refine ⟨w, t, n, rfl, h1, ?_, ?_, ?_⟩
          · simp only; split_ifs <;> rfl
          · simp only; split_ifs <;> rfl
          · simp only; split_ifs <;> rfl
      · left; simp [h2, is_read, is_fetch]

theorem inv_sw_start (K : WinConsts) (os : OS) (msg : String) (o : Option sw_watcher)
    (h : InvO K o) : InvO K (sw_start K os msg o).watcher := by
  cases o with
  | none => intro w hw; simp [sw_start] at hw
  | some w =>
    have hi := h w rfl
    rw [sw_start_some]
    intro w' hw'
    split_ifs at hw' with h1 h2 <;> simp only [Option.some.injEq] at hw' <;> subst hw'
    · exact hi
    · exact ⟨Or.inr rfl, fun _ => h1⟩
    · exact hi

theorem inv_sw_wait (K : WinConsts) (os : OS) (msg : String) (o : Option sw_watcher)
    (tm : Int) (h : InvO K o) : InvO K (sw_wait K os msg o tm).watcher := by
  rcases sw_wait_shape K os msg o tm with ⟨hw, -⟩ | ⟨w, t, n, -, -, hw, -⟩
  · rw [hw]; exact h
  · rw [hw]; exact inv_sw_start K os msg o h

theorem inv_step (K : WinConsts) (s : Sys) (op : Op) (h : InvO K s.watcher) :
    InvO K (step K s op).watcher := by
  cases op with
  | start os => exact inv_sw_start K os _ _ h
  | poll os =>
    simp only [step]
    rw [sw_poll_eq_sw_wait]
    exact inv_sw_wait K os _ _ 0 h
  | wait os tm => exact inv_sw_wait K os _ _ tm h
  | completion bytes =>
    intro w hw
    simp only [step, Option.map_eq_some'] at hw
    obtain ⟨w0, hw0, rfl⟩ := hw
    exact h w0 hw0

theorem inv_run (K : WinConsts) (ops : List Op) :
    ∀ s : Sys, InvO K s.watcher → InvO K (run K s ops).watcher := by
  induction ops with
  | nil => intro s h; exact h
  | cons op ops ih =>
    intro s h
    exact ih (step K s op) (inv_step K s op h)

theorem inv_created (K : WinConsts) (os : OS) (msg path : String) (subtree flags : Int) :
    InvO K (created K os msg path subtree flags).watcher := by
  intro w hw
  simp only [created, sw_create] at hw
  split_ifs at hw <;> simp only [Option.some.injEq] at hw <;> subst hw <;>
    exact ⟨Or.inl rfl, fun h => absurd rfl h⟩

theorem inv_of_reachable (K : WinConsts) (w : sw_watcher) (h : Reachable K w) : Inv K w := by
  obtain ⟨os, msg, path, subtree, flags, ops, hw⟩ := h
  exact inv_run K ops _ (inv_created K os msg path subtree flags) w hw

theorem set_is_watching_eq (w : sw_watcher) (h : w.is_watching = 1) :
    { w with is_watching := 1 } = w := by
  cases w
  simp only at h
  subst h
  rfl

/-! ## Overflow -/

theorem sw_wait_overflow (K : WinConsts) (os : OS) (msg : String) (w : sw_watcher)
    (tm : Int) (hi : Inv K w) (hw : w.is_watching ≠ 0)
    (hsig : ∀ t, os.WaitForSingleObject w.event_handle t = K.WAIT_OBJECT_0)
    (hov : os.GetOverlappedResult w.directory_handle w.overlapped_hEvent = some 0) :
    (sw_wait K os msg (some w) tm).ret = none ∧
    reads_issued (sw_wait K os msg (some w) tm).calls = 1 ∧
    (read_accepted K os w = true →
      (sw_wait K os msg (some w) tm).watcher = some w ∧
      (sw_wait K os msg (some w) tm).last_error_msg = msg) := by
  have hd := hi.2 hw
  have h1 : w.is_watching = 1 := by
    rcases hi.1 with h | h
    · exact absurd h hw
    · exact h
  simp only [sw_wait, if_neg hw, hsig, hov, ne_eq, not_true_eq_false, if_false, if_true,
    sw_start_some, if_neg hd]
  refine ⟨trivial, ?_, ?_⟩
  · split_ifs <;>
      simp [reads_issued, is_read, List.filter_append,
        filter_free_chars is_read _ (fun _ => rfl)]
  · intro ha
    simp only [ha, if_true, set_is_watching_eq w h1, and_self]

/-- C7: on a reachable watching handle whose read has completed with zero
bytes (the event is signalled and `GetOverlappedResult` reports 0 bytes),
`sw_poll` and `sw_wait` return no event and issue exactly one
`ReadDirectoryChangesW`; when that read is accepted the handle is left as it
was (still watching, `is_watching = 1`, error field untouched) and the static
error buffer is untouched. -/
theorem overflow_rearms_once (K : WinConsts) (os : OS) (msg : String) (w : sw_watcher)
    (timeout_ms : Int) (hr : Reachable K w) (hw : sw_is_watching (some w) ≠ 0)
    (hsig : ∀ t, os.WaitForSingleObject w.event_handle t = K.WAIT_OBJECT_0)
    (hov : os.GetOverlappedResult w.directory_handle w.overlapped_hEvent = some 0) :
    (sw_poll K os msg (some w)).ret = none ∧
    reads_issued (sw_poll K os msg (some w)).calls = 1 ∧
    (sw_wait K os msg (some w) timeout_ms).ret = none ∧
    reads_issued (sw_wait K os msg (some w) timeout_ms).calls = 1 ∧
    (read_accepted K os w = true →
      (sw_poll K os msg (some w)).watcher = some w ∧
      (sw_poll K os msg (some w)).last_error_msg = msg ∧
      (sw_wait K os msg (some w) timeout_ms).watcher = some w ∧
      (sw_wait K os msg (some w) timeout_ms).last_error_msg = msg ∧
      sw_is_watching (some w) = 1 ∧
      sw_get_error (sw_poll K os msg (some w)).watcher = sw_get_error (some w) ∧
      sw_get_error (sw_wait K os msg (some w) timeout_ms).watcher = sw_get_error (some w)) := by
  have hi := inv_of_reachable K w hr
  have hw' : w.is_watching ≠ 0 := hw
  have h1 : w.is_watching = 1 := by
    rcases hi.1 with h | h
    · exact absurd h hw'
    · exact h
  obtain ⟨p1, p2, p3⟩ := sw_wait_overflow K os msg w 0 hi hw' hsig hov
  obtain ⟨q1, q2, q3⟩ := sw_wait_overflow K os msg w timeout_ms hi hw' hsig hov
  rw [sw_poll_eq_sw_wait]
  refine ⟨p1, p2, q1, q2, ?_⟩
  intro ha
  obtain ⟨a1, a2⟩ := p3 ha
  obtain ⟨b1, b2⟩ := q3 ha
  refine ⟨a1, a2, b1, b2, h1, ?_, ?_⟩
  · rw [a1]
  · rw [b1]

theorem w_watching_reachable : Reachable win32 w_watching :=
  ⟨os_ok, "", "C:/watched", 0, 0x3F, [Op.start os_ok], rfl⟩

theorem overflow_rearms_once_witness :
    (sw_poll win32 os_overflow "" (some w_watching)).ret = none ∧
    reads_issued (sw_poll win32 os_overflow "" (some w_watching)).calls = 1 ∧
    (sw_wait win32 os_overflow "" (some w_watching) 50).ret = none ∧
    reads_issued (sw_wait win32 os_overflow "" (some w_watching) 50).calls = 1 :=
  have h := overflow_rearms_once win32 os_overflow "" w_watching 50 w_watching_reachable
    (by decide) (fun _ => rfl) rfl
  ⟨h.1, h.2.1, h.2.2.1, h.2.2.2.1⟩

/-! ## The recorded error -/

theorem sw_start_error (K : WinConsts) (os : OS) (msg : String) (o : Option sw_watcher) :
    sw_get_error (sw_start K os msg o).watcher = sw_get_error o ∨
    (∃ w, o = some w ∧ w.directory_handle ≠ K.INVALID_HANDLE_VALUE ∧
      read_accepted K os w = false ∧
      sw_get_error (sw_start K os msg o).watcher =
        _strdup os Alloc.error_message (store_last_error os msg)) := by
  cases o with
  | none => left; rfl
  | some w =>
    rw [sw_start_some]
    by_cases h1 : w.directory_handle = K.INVALID_HANDLE_VALUE
    · left; simp [h1]
    · by_cases h2 : read_accepted K os w = true
      · left; simp [h1, h2, sw_get_error]
      · right
        refine ⟨w, rfl, h1, by simpa using h2, ?_⟩
        simp [h1, h2, sw_get_error]

theorem sw_wait_error (K : WinConsts) (os : OS) (msg : String) (o : Option sw_watcher)
    (tm : Int) :
    sw_get_error (sw_wait K os msg o tm).watcher = sw_get_error o ∨
    (∃ w, o = some w ∧ w.directory_handle ≠ K.INVALID_HANDLE_VALUE ∧
      read_accepted K os w = false ∧
      sw_get_error (sw_wait K os msg o tm).watcher =
        _strdup os Alloc.error_message (store_last_error os msg)) := by
  rcases sw_wait_shape K os msg o tm with ⟨hw, -⟩ | ⟨w, t, n, -, -, hw, -⟩
  · left; rw [hw]
  · rw [hw]; exact sw_start_error K os msg o

theorem step_error (K : WinConsts) (s : Sys) (op : Op) :
    sw_get_error (step K s op).watcher = sw_get_error s.watcher ∨
    (∃ os w, op_under os op ∧ s.watcher = some w ∧
      w.directory_handle ≠ K.INVALID_HANDLE_VALUE ∧ read_accepted K os w = false ∧
      sw_get_error (step K s op).watcher =
        _strdup os Alloc.error_message (store_last_error os s.last_error_msg)) := by
  cases op with
  | start os =>
    rcases sw_start_error K os s.last_error_msg s.watcher with h | ⟨w, h1, h2, h3, h4⟩
    · left; exact h
    · right; exact ⟨os, w, Or.inl rfl, h1, h2, h3, h4⟩
  | poll os =>
    simp only [step]
    rw [sw_poll_eq_sw_wait]
    rcases sw_wait_error K os s.last_error_msg s.watcher 0 with h | ⟨w, h1, h2, h3, h4⟩
    · left; exact h
    · right; exact ⟨os, w, Or.inr (Or.inl rfl), h1, h2, h3, h4⟩
  | wait os tm =>
    rcases sw_wait_error K os s.last_error_msg s.watcher tm with h | ⟨w, h1, h2, h3, h4⟩
    · left; exact h
    · right; exact ⟨os, w, Or.inr (Or.inr ⟨tm, rfl⟩), h1, h2, h3, h4⟩
  | completion bytes =>
    left
    simp only [step]
    cases s.watcher <;> rfl

theorem copy_ok_of_under (os : OS) (op : Op) (hu : op_under os op) (hc : copy_ok op = true) :
    os.malloc Alloc.error_message = true := by
  rcases hu with rfl | rfl | ⟨t, rfl⟩ <;> exact hc

theorem failed_step (K : WinConsts) (e : Option String) (s : Sys) (op : Op)
    (h : FailedWith K e s.watcher) : FailedWith K e (step K s op).watcher := by
  obtain ⟨w, hw, hd, hz, he⟩ := h
  cases op with
  | start os =>
    simp only [step, hw, sw_start_some, if_pos hd]
    exact ⟨w, rfl, hd, hz, he⟩
  | poll os =>
    simp only [step, hw, sw_poll, if_pos hz]
    exact ⟨w, rfl, hd, hz, he⟩
  | wait os tm =>
    simp only [step, hw, sw_wait, if_pos hz]
    exact ⟨w, rfl, hd, hz, he⟩
  | completion bytes =>
    simp only [step, hw, Option.map_some']
    exact ⟨_, rfl, hd, hz, he⟩

theorem failed_run (K : WinConsts) (e : Option String) (ops : List Op) :
    ∀ s : Sys, FailedWith K e s.watcher → FailedWith K e (run K s ops).watcher := by
  induction ops with
  | nil => intro s h; exact h
  | cons op ops ih =>
    intro s h
    exact ih (step K s op) (failed_step K e s op h)

theorem error_some_run (K : WinConsts) (ops : List Op) :
    ∀ s : Sys, (∀ op ∈ ops, copy_ok op = true) →
      (sw_get_error s.watcher).isSome = true →
      (sw_get_error (run K s ops).watcher).isSome = true := by
  induction ops with
  | nil => intro s _ h; exact h
  | cons op ops ih =>
    intro s hc h
    apply ih (step K s op) (fun o ho => hc o (List.mem_cons_of_mem op ho))
    rcases step_error K s op with e | ⟨os, w, hu, -, -, -, e⟩
    · rw [e]; exact h
    · rw [e, strdup_ok os _ _ (copy_ok_of_under os op hu (hc op (List.mem_cons_self op ops)))]
      rfl

/-- C9 (counterexample): after a directory is opened, a first rejected
`sw_start` (error 5) records "Access is denied."; a second rejected `sw_start`
(error 6) replaces it, and `sw_get_error` then returns the second text. -/
theorem error_replaced_by_later_rejection :
    sw_get_error (run win32 (created win32 os_ok "" "C:/watched" 0 0x3F)
      [Op.start (os_reject 5 "Access is denied.")]).watcher = some "Access is denied." ∧
    sw_get_error (run win32 (created win32 os_ok "" "C:/watched" 0 0x3F)
      [Op.start (os_reject 5 "Access is denied."),
       Op.start (os_reject 6 "The handle is invalid.")]).watcher
      = some "The handle is invalid." ∧
    sw_get_error (run win32 (created win32 os_ok "" "C:/watched" 0 0x3F)
      [Op.start (os_reject 5 "Access is denied."),
       Op.start (os_reject 6 "The handle is invalid.")]).watcher
      ≠ some "Access is denied." := by
  refine ⟨rfl, rfl, ?_⟩
  decide

/-- C9 (amended): what `sw_get_error` returns after a failed open or a failed
event creation in `sw_create` is returned unchanged after every sequence of
operations; every single operation either leaves the recorded error as it is
or is a call whose read was rejected, which records the text of that rejection
when its copy can be allocated; as long as these copies can be allocated, a
recorded error is never cleared. -/
theorem recorded_error_kept (K : WinConsts) :
    (∀ (os : OS) (msg path : String) (subtree flags : Int) (ops : List Op),
      (OsCall.CreateFileA path K.INVALID_HANDLE_VALUE ∈
          (sw_create K os msg path subtree flags).calls ∨
        OsCall.CreateEvent 0 ∈ (sw_create K os msg path subtree flags).calls) →
      sw_get_error (run K (created K os msg path subtree flags) ops).watcher
        = sw_get_error (sw_create K os msg path subtree flags).ret) ∧
    (∀ (s : Sys) (op : Op),
      sw_get_error (step K s op).watcher = sw_get_error s.watcher ∨
      (∃ os w, op_under os op ∧ s.watcher = some w ∧
        w.directory_handle ≠ K.INVALID_HANDLE_VALUE ∧ read_accepted K os w = false ∧
        (os.malloc Alloc.error_message = true →
          sw_get_error (step K s op).watcher
            = some (store_last_error os s.last_error_msg)))) ∧
    (∀ (s : Sys) (ops : List Op), (∀ op ∈ ops, copy_ok op = true) →
      (sw_get_error s.watcher).isSome = true →
      (sw_get_error (run K s ops).watcher).isSome = true) := by
  refine ⟨?_, ?_, fun s ops => error_some_run K ops s⟩
  · intro os msg path subtree flags ops hfail
    have hf : ∃ w, (sw_create K os msg path subtree flags).ret = some w ∧
        FailedWith K w.error_message (created K os msg path subtree flags).watcher := by
      simp only [created, sw_create] at hfail ⊢
      split_ifs at hfail ⊢ with h1 h2 h3
      · simp at hfail
      · exact ⟨_, rfl, _, rfl, h2, rfl, rfl⟩
      · exact ⟨_, rfl, _, rfl, rfl, rfl, rfl⟩
      · exfalso
        simp at hfail
        rcases hfail with hf | hf
        · exact h2 hf.symm
        · exact h3 hf.symm
    obtain ⟨w0, hw0, hf0⟩ := hf
    obtain ⟨w, hw, -, -, he⟩ := failed_run K _ ops _ hf0
    rw [hw, hw0]
    exact he
  · intro s op
    rcases step_error K s op with h | ⟨os, w, h1, h2, h3, h4, h5⟩
    · left; exact h
    · right
      refine ⟨os, w, h1, h2, h3, h4, ?_⟩
      intro hm
      rw [h5, strdup_ok os _ _ hm]

theorem recorded_error_kept_witness :
    sw_get_error (run win32 (created win32 os_no_dir "" "C:/missing" 0 0x3F)
      [Op.start (os_reject 5 "Access is denied."), Op.poll os_ok, Op.wait os_ok 50]).watcher
      = some "The system cannot find the path specified." :=
  (recorded_error_kept win32).1 os_no_dir "" "C:/missing" 0 0x3F
    [Op.start (os_reject 5 "Access is denied."), Op.poll os_ok, Op.wait os_ok 50]
    (Or.inl (by decide))

/-! ## Outstanding reads -/

theorem outstanding_append (K : WinConsts) (a b : List OsCall) :
    outstanding K (a ++ b) = b.foldl (tick K) (outstanding K a) := by
  simp [outstanding, List.foldl_append]

theorem foldl_tick_quiet (K : WinConsts) (l : List OsCall) :
    ∀ n : Nat, (∀ c ∈ l, is_read c = false ∧ is_fetch c = false) →
      l.foldl (tick K) n = n := by
  induction l with
  | nil => intro n _; rfl
  | cons c l ih =>
    intro n h
    have hc := h c (List.mem_cons_self c l)
    have hl : ∀ d ∈ l, is_read d = false ∧ is_fetch d = false :=
      fun d hd => h d (List.mem_cons_of_mem c hd)
    rw [List.foldl_cons]
    have ht : tick K n c = n := by
      cases c with
      | ReadDirectoryChangesW _ _ _ _ _ _ _ => simp [is_read] at hc
      | GetOverlappedResult d e r =>
        cases r with
        | none => rfl
        | some m => simp [is_fetch] at hc
      | _ => rfl
    rw [ht]
    exact ih n hl

theorem foldl_tick_start (K : WinConsts) (os : OS) (msg : String) (o : Option sw_watcher)
    (n : Nat) : (sw_start K os msg o).calls.foldl (tick K) n ≤ n + 1 := by
  cases o with
  | none => simp [sw_start]
  | some w =>
    rw [sw_start_some]
    split_ifs
    · simp
    · simp only [List.foldl_cons, List.foldl_nil, tick]
      split_ifs <;> omega
    · simp only [List.foldl_append, foldl_tick_free_chars, List.foldl_cons, List.foldl_nil,
        tick]
      split_ifs <;> omega

theorem outstanding_wait (K : WinConsts) (os : OS) (msg : String) (o : Option sw_watcher)
    (tm : Int) (calls : List OsCall) (h : outstanding K calls ≤ 1) :
    outstanding K (calls ++ (sw_wait K os msg o tm).calls) ≤ 1 := by
  rw [outstanding_append]
  rcases sw_wait_shape K os msg o tm with ⟨-, -, -, hq⟩ | ⟨w, t, n, -, -, -, -, hc⟩
  · rw [foldl_tick_quiet K _ _ hq]; exact h
  · rw [hc, List.foldl_append]
    have h0 : List.foldl (tick K) (outstanding K calls)
        [OsCall.WaitForSingleObject w.event_handle t K.WAIT_OBJECT_0,
         OsCall.GetOverlappedResult w.directory_handle w.overlapped_hEvent (some n)] = 0 := by
      simp only [List.foldl_cons, List.foldl_nil, tick]
      omega
    rw [h0]
    exact foldl_tick_start K os msg o 0

theorem outstanding_step (K : WinConsts) (s : Sys) (op : Op)
    (h : outstanding K s.calls ≤ 1)
    (hg : is_start op = true → outstanding K s.calls = 0) :
    outstanding K (step K s op).calls ≤ 1 := by
  cases op with
  | start os =>
    simp only [step]
    rw [outstanding_append, hg rfl]
    exact foldl_tick_start K os _ _ 0
  | poll os =>
    simp only [step]
    rw [sw_poll_eq_sw_wait]
    exact outstanding_wait K os _ _ 0 _ h
  | wait os tm => exact outstanding_wait K os _ _ tm _ h
  | completion bytes => exact h

theorem outstanding_guarded (K : WinConsts) (ops : List Op) :
    ∀ s : Sys, outstanding K s.calls ≤ 1 → guarded K s ops = true →
      outstanding K (run K s ops).calls ≤ 1 := by
  induction ops with
  | nil => intro s h _; exact h
  | cons op ops ih =>
    intro s h hg
    simp only [guarded, Bool.and_eq_true, Bool.or_eq_true, Bool.not_eq_true',
      decide_eq_true_eq] at hg
    apply ih (step K s op) _ hg.2
    apply outstanding_step K s op h
    intro hs
    rcases hg.1 with hn | hz
    · rw [hs] at hn; simp at hn
    · exact hz

theorem created_quiet (K : WinConsts) (os : OS) (msg path : String) (subtree flags : Int) :
    outstanding K (created K os msg path subtree flags).calls = 0 := by
  simp only [created, sw_create]
  split_ifs <;> rfl

/-- C10 (counterexample): `sw_start` on a handle that is already watching with
its read pending issues one more `ReadDirectoryChangesW`; after create, start,
start (both reads taken as pending, no completion fetched) two reads are
outstanding. -/
theorem second_start_issues_second_read :
    sw_is_watching (some w_watching) = 1 ∧
    reads_issued (sw_start win32 os_ok "" (some w_watching)).calls = 1 ∧
    outstanding win32 (run win32 (created win32 os_ok "" "C:/watched" 0 0x3F)
      [Op.start os_ok, Op.start os_ok]).calls = 2 := by
  refine ⟨rfl, ?_, ?_⟩ <;> decide

/-- C10 (amended): along every sequence of `sw_start` / `sw_poll` / `sw_wait`
calls and kernel completions in which no `sw_start` is called while a read is
outstanding, at most one read is outstanding (a read is outstanding from the
call the OS takes until `GetOverlappedResult` reports a completion).
`sw_start` has no guard on `is_watching`: on every handle with a valid
directory handle it resets the event and issues exactly one read, also on a
handle that is already watching; when the OS takes that read the handle
changes in `is_watching` only, which becomes 1, so a handle already watching
is left as it was. -/
theorem one_read_outstanding (K : WinConsts) :
    (∀ (os : OS) (msg path : String) (subtree flags : Int) (ops : List Op),
      guarded K (created K os msg path subtree flags) ops = true →
      outstanding K (run K (created K os msg path subtree flags) ops).calls ≤ 1) ∧
    (∀ (os : OS) (msg : String) (w : sw_watcher),
      w.directory_handle ≠ K.INVALID_HANDLE_VALUE →
      reads_issued (sw_start K os msg (some w)).calls = 1 ∧
      (sw_start K os msg (some w)).calls.head? = some (OsCall.ResetEvent w.event_handle) ∧
      (read_accepted K os w = true →
        (sw_start K os msg (some w)).watcher = some { w with is_watching := 1 } ∧
        (sw_start K os msg (some w)).last_error_msg = msg ∧
        (w.is_watching = 1 → (sw_start K os msg (some w)).watcher = some w))) := by
  constructor
  · intro os msg path subtree flags ops h
    have c := created_quiet K os msg path subtree flags
    exact outstanding_guarded K ops _ (by omega) h
  · intro os msg w hd
    rw [sw_start_some, if_neg hd]
    refine ⟨?_, ?_, ?_⟩
    · split_ifs <;>
        simp [reads_issued, is_read, List.filter_append,
          filter_free_chars is_read _ (fun _ => rfl)]
    · split_ifs <;> rfl
    · intro ha
      simp only [ha, if_true, true_and]
      intro h1
      rw [set_is_watching_eq w h1]

theorem one_read_outstanding_witness :
    outstanding win32 (run win32 (created win32 os_ok "" "C:/watched" 0 0x3F)
      [Op.poll os_ok, Op.start (os_reject 5 "Access is denied."), Op.start os_ok,
       Op.poll os_ok, Op.wait os_ok 50, Op.poll os_idle]).calls ≤ 1 ∧
    reads_issued (sw_start win32 os_ok "" (some w_watching)).calls = 1 :=
  ⟨(one_read_outstanding win32).1 os_ok "" "C:/watched" 0 0x3F
      [Op.poll os_ok, Op.start (os_reject 5 "Access is denied."), Op.start os_ok,
       Op.poll os_ok, Op.wait os_ok 50, Op.poll os_idle] (by decide),
   ((one_read_outstanding win32).2 os_ok "" w_watching (by decide)).1⟩

/-! ## Records after the first -/

theorem sw_wait_ret (K : WinConsts) (os : OS) (msg : String) (w : sw_watcher) (tm : Int) :
    (sw_wait K os msg (some w) tm).ret = none ∨
    (sw_wait K os msg (some w) tm).ret = process_notification K os (info_at w.buffer 0) := by
  simp only [sw_wait]
  generalize (if tm < 0 then K.INFINITE else bits32 tm) = t
  by_cases h1 : w.is_watching = 0
  · left; simp [h1]
  · simp only [if_neg h1]
    by_cases h2 : os.WaitForSingleObject w.event_handle t = K.WAIT_OBJECT_0
    · simp only [h2, ne_eq, not_true_eq_false, if_false]
      cases hov : os.GetOverlappedResult w.directory_handle w.overlapped_hEvent with
      | none => left; rfl
      | some n =>
        simp only
        split_ifs
        · left; rfl
        · right; rfl
    · left; simp [h2]

theorem first_record_is_added (os : OS) (e : sw_event)
    (h : process_notification win32 os (info_at two_records 0) = some e) :
    e.event_type = 1 := by
  have ha : action_to_event_type win32 (info_at two_records 0).Action = 1 := by decide
  simp only [process_notification] at h
  split_ifs at h <;> simp only [Option.some.injEq] at h <;> subst h <;> exact ha

/-- C1 (the code at the failing input): a watching handle whose completed read
left two chained records (added "a", removed "b") in the buffer.  The chain
stands for two events; `sw_poll` delivers the first and re-arms, nothing is
queued (`pending_event` stays null, the handle is as before), and whatever the
OS then answers, neither `sw_poll` nor `sw_wait` ever returns the event of the
second record. -/
theorem second_record_never_delivered :
    chain_events win32 os_ok two_records =
      [⟨1, some "a", none⟩, ⟨2, some "b", none⟩] ∧
    (sw_poll win32 os_ok "" (some { w_watching with buffer := two_records })).ret =
      some ⟨1, some "a", none⟩ ∧
    (sw_poll win32 os_ok "" (some { w_watching with buffer := two_records })).watcher =
      some { w_watching with buffer := two_records } ∧
    sw_event.mk 2 (some "b") none ∉ (chain_events win32 os_ok two_records).take 1 ∧
    (∀ (os : OS) (msg : String) (tm : Int),
      (sw_poll win32 os msg (some { w_watching with buffer := two_records })).ret ≠
        some ⟨2, some "b", none⟩ ∧
      (sw_wait win32 os msg (some { w_watching with buffer := two_records }) tm).ret ≠
        some ⟨2, some "b", none⟩) := by
  refine ⟨by decide, by decide, by decide, by decide, ?_⟩
  intro os msg tm
  have key : ∀ t : Int,
      (sw_wait win32 os msg (some { w_watching with buffer := two_records }) t).ret ≠
        some ⟨2, some "b", none⟩ := by
    intro t hc
    rcases sw_wait_ret win32 os msg { w_watching with buffer := two_records } t with h | h
    · rw [h] at hc; simp at hc
    · rw [h] at hc
      have := first_record_is_added os _ hc
      simp at this
  rw [sw_poll_eq_sw_wait]
  exact ⟨key 0, key tm⟩

/-! ## Closing -/

/-- C8 (counterexample): the first `sw_close` on a live watching handle cancels
the read, closes both kernel handles and releases the object; the second
`sw_close` on the same pointer, and an error query after the first close, read
released memory instead of finding a Closed state. -/
theorem second_close_uses_freed_handle :
    call_sw_close win32 (Handle.live w_watching) =
      Except.ok (Handle.freed,
        [OsCall.CancelIo 100, OsCall.CloseHandle 100, OsCall.CloseHandle 200,
         OsCall.free (HeapBlock.chars "C:/watched"),
         OsCall.free HeapBlock.watcher_struct]) ∧
    close_twice win32 (Handle.live w_watching) = Except.error Fault.use_after_free ∧
    close_then_get_error win32 (Handle.live w_watching) =
      Except.error Fault.use_after_free := by
  refine ⟨rfl, rfl, rfl⟩

/-- C8 (amended): `sw_close` on a null handle does nothing, once or twice.  On
a live handle one `sw_close` cancels the I/O and closes the directory handle
when it is valid (the cancel first), closes the event handle when it is
non-null, and releases the object: the handle then refers to released memory,
on which a further `sw_close`, `sw_get_error` or `sw_is_watching` is undefined.
Together with `sw_create`, one `sw_close` closes every kernel handle that was
opened exactly once. -/
theorem sw_close_once (K : WinConsts) :
    call_sw_close K Handle.null = Except.ok (Handle.null, []) ∧
    close_twice K Handle.null = Except.ok (Handle.null, []) ∧
    close_then_get_error K Handle.null = Except.ok none ∧
    (∀ w : sw_watcher,
      call_sw_close K (Handle.live w) = Except.ok (Handle.freed, sw_close K (some w)) ∧
      close_twice K (Handle.live w) = Except.error Fault.use_after_free ∧
      close_then_get_error K (Handle.live w) = Except.error Fault.use_after_free ∧
      sw_close K (some w) =
        (if w.directory_handle ≠ K.INVALID_HANDLE_VALUE then
          [OsCall.CancelIo w.directory_handle, OsCall.CloseHandle w.directory_handle]
         else []) ++
        (if w.event_handle ≠ 0 then [OsCall.CloseHandle w.event_handle] else []) ++
        free_chars w.watch_path ++ free_chars w.error_message ++
        sw_free_event w.pending_event ++ [OsCall.free HeapBlock.watcher_struct]) ∧
    call_sw_get_error Handle.freed = Except.error Fault.use_after_free ∧
    call_sw_is_watching Handle.freed = Except.error Fault.use_after_free ∧
    (∀ (os : OS) (msg path : String) (subtree flags : Int) (w : sw_watcher),
      (sw_create K os msg path subtree flags).ret = some w →
      ((sw_create K os msg path subtree flags).calls ++ sw_close K (some w)).filter
          (fun c => decide (c = OsCall.CloseHandle (os.CreateFileA path))
            || decide (c = OsCall.CloseHandle os.CreateEvent)) =
        if os.CreateFileA path = K.INVALID_HANDLE_VALUE then []
        else if os.CreateEvent = 0 then [OsCall.CloseHandle (os.CreateFileA path)]
        else [OsCall.CloseHandle (os.CreateFileA path), OsCall.CloseHandle os.CreateEvent]) := by
  refine ⟨rfl, rfl, rfl, fun w => ⟨rfl, rfl, rfl, rfl⟩, rfl, rfl, ?_⟩
  intro os msg path subtree flags w hw
  have hf : ∀ b, (fun c => decide (c = OsCall.CloseHandle (os.CreateFileA path))
      || decide (c = OsCall.CloseHandle os.CreateEvent)) (OsCall.free b) = false := by
    intro b; simp
  have e1 := fun p => filter_free_chars
    (fun c => decide (c = OsCall.CloseHandle (os.CreateFileA path))
      || decide (c = OsCall.CloseHandle os.CreateEvent)) p hf
  have e2 := fun e => filter_sw_free_event
    (fun c => decide (c = OsCall.CloseHandle (os.CreateFileA path))
      || decide (c = OsCall.CloseHandle os.CreateEvent)) e hf
  have hz : zeroed.event_handle = 0 := rfl
  simp only [sw_create] at hw ⊢
  split_ifs at hw ⊢ with h1 h2 h3
  · simp only [Option.some.injEq] at hw
    subst hw
    simp only [sw_close, List.filter_append, e1, e2, List.append_nil]
    simp [h2, hz]
  · simp only [Option.some.injEq] at hw
    subst hw
    simp only [sw_close, List.filter_append, e1, e2, List.append_nil]
    simp [h3]
  · simp only [Option.some.injEq] at hw
    subst hw
    simp only [sw_close, List.filter_append, e1, e2, List.append_nil]
    simp [h2, h3]

theorem sw_close_once_witness :
    ((sw_create win32 os_ok "" "C:/watched" 0 0x3F).calls ++ sw_close win32 (some w_created)).filter
        (fun c => decide (c = OsCall.CloseHandle (os_ok.CreateFileA "C:/watched"))
          || decide (c = OsCall.CloseHandle os_ok.CreateEvent)) =
      [OsCall.CloseHandle 100, OsCall.CloseHandle 200] :=
  (sw_close_once win32).2.2.2.2.2.2 os_ok "" "C:/watched" 0 0x3F w_created rfl

end SimpleWatcher
